import Mathlib

/-!
Verification of the core of RelativeTrajectoryVisualization: a 2D point-mass
simulation (physics.h), a pairwise inverse-square force law and a forward
trajectory predictor (main.cpp), and a tree of affine coordinate frames
(Frame2D). Machine floats are embedded as exact rationals; the square root
used by vector magnitude is kept as an explicit function parameter, and a
concrete rational model of it is supplied for evaluation.
-/

/-- Modelled from the spec: Vector2D, a 2D value type over floating components
(the header Vector2D.h is not part of the provided sources; its componentwise
arithmetic is fixed by the spec and by its uses in physics.h and main.cpp). -/
@[ext]
structure Vector2D where
  x : ℚ
  y : ℚ
deriving DecidableEq

/-- Modelled from the spec: the zero vector, `Vector2D::zero()`. -/
def Vector2D.zero : Vector2D := ⟨0, 0⟩

instance : Add Vector2D := ⟨fun a b => ⟨a.x + b.x, a.y + b.y⟩⟩

instance : Sub Vector2D := ⟨fun a b => ⟨a.x - b.x, a.y - b.y⟩⟩

instance : Neg Vector2D := ⟨fun a => ⟨-a.x, -a.y⟩⟩

instance : HMul Vector2D ℚ Vector2D := ⟨fun a q => ⟨a.x * q, a.y * q⟩⟩

instance : HDiv Vector2D ℚ Vector2D := ⟨fun a q => ⟨a.x / q, a.y / q⟩⟩

theorem Vector2D.add_def (a b : Vector2D) : a + b = ⟨a.x + b.x, a.y + b.y⟩ := rfl

theorem Vector2D.sub_def (a b : Vector2D) : a - b = ⟨a.x - b.x, a.y - b.y⟩ := rfl

theorem Vector2D.neg_def (a : Vector2D) : -a = ⟨-a.x, -a.y⟩ := rfl

theorem Vector2D.smul_def (a : Vector2D) (q : ℚ) : a * q = ⟨a.x * q, a.y * q⟩ := rfl

theorem Vector2D.sdiv_def (a : Vector2D) (q : ℚ) : a / q = ⟨a.x / q, a.y / q⟩ := rfl

/-- The squared Euclidean norm, the argument handed to sqrt by magnitude. -/
def Vector2D.normSq (v : Vector2D) : ℚ := v.x * v.x + v.y * v.y

/-- Modelled from the spec: `Vector2D::magnitude`, sqrt of the squared norm.
The sqrt function itself is a parameter of the embedding. -/
def Vector2D.magnitude (s : ℚ → ℚ) (v : Vector2D) : ℚ := s v.normSq

/-- Modelled from the spec: `Vector2D::normalized`, the vector divided by its
magnitude. -/
def Vector2D.normalized (s : ℚ → ℚ) (v : Vector2D) : Vector2D :=
  v / v.magnitude s

/-- A concrete executable stand-in for sqrt on ℚ, exact on ratios of perfect
squares (the only places witnesses evaluate it). -/
def ratSqrt (q : ℚ) : ℚ := (Nat.sqrt q.num.toNat : ℚ) / (Nat.sqrt q.den : ℚ)

/-- PhysicsBody from physics.h: position, velocity, accumulated acceleration
and mass. -/
structure PhysicsBody where
  position : Vector2D
  velocity : Vector2D
  acceleration : Vector2D
  mass : ℚ
deriving DecidableEq

/-- The default constructor `PhysicsBody()`: zero position, velocity and
acceleration, unit mass. -/
def PhysicsBody.default : PhysicsBody :=
  { position := Vector2D.zero
    velocity := Vector2D.zero
    acceleration := Vector2D.zero
    mass := 1 }

/-- The three-argument constructor `PhysicsBody(position, velocity, mass)`.
It performs no validation of mass. The acceleration member is left to the
default construction of Vector2D, modelled from the spec as the zero vector. -/
def PhysicsBody.mk3 (position velocity : Vector2D) (mass : ℚ) : PhysicsBody :=
  { position := position
    velocity := velocity
    acceleration := Vector2D.zero
    mass := mass }

/-- Source method `PhysicsBody::update(dt)`: velocity += acceleration * dt, then
position += velocity * dt with the already updated velocity, then the
acceleration is reset to zero. -/
def PhysicsBody.update (dt : ℚ) (b : PhysicsBody) : PhysicsBody :=
  let velocity := b.velocity + b.acceleration * dt
  let position := b.position + velocity * dt
  { position := position
    velocity := velocity
    acceleration := Vector2D.zero
    mass := b.mass }

/-- Source method `PhysicsBody::applyForce(force)`: acceleration += force / mass. -/
def PhysicsBody.applyForce (force : Vector2D) (b : PhysicsBody) : PhysicsBody :=
  { b with acceleration := b.acceleration + force / b.mass }

/-- Source method `PhysicsBody::applyAcceleration(acceleration)`: the parameter shadows the
member of the same name, so the statement `acceleration += acceleration`
doubles the parameter and discards it; the body is returned unchanged. -/
def PhysicsBody.applyAcceleration (a : Vector2D) (b : PhysicsBody) : PhysicsBody :=
  let _acceleration := a + a
  b

/-- Modelled from the spec: applyAcceleration as documented, the accumulator
gains the passed-in acceleration. Stated only to compare with the source
behaviour. -/
def specApplyAcceleration (a : Vector2D) (b : PhysicsBody) : PhysicsBody :=
  { b with acceleration := b.acceleration + a }

/-- Source method `PhysicsBody::setMass(mass)`: stores the mass with no validation. -/
def PhysicsBody.setMass (m : ℚ) (b : PhysicsBody) : PhysicsBody :=
  { b with mass := m }

/-- Source method `PhysicsBody::clone()`: `PhysicsBody(position, velocity, mass)`, a value
copy of position, velocity and mass; the accumulated acceleration is not
carried over. -/
def PhysicsBody.clone (b : PhysicsBody) : PhysicsBody :=
  PhysicsBody.mk3 b.position b.velocity b.mass

/-- PhysicsWorld from physics.h: a tick counter and an ordered collection of
bodies. -/
structure PhysicsWorld where
  ticks : ℤ
  bodies : List PhysicsBody
deriving DecidableEq

/-- Source method `PhysicsWorld::update(dt)`: increments ticks, then updates each body in
collection order; iteration i of the loop reads and writes only bodies[i]. -/
def PhysicsWorld.update (dt : ℚ) (w : PhysicsWorld) : PhysicsWorld :=
  { ticks := w.ticks + 1
    bodies := w.bodies.map (PhysicsBody.update dt) }

/-- Source method `PhysicsWorld::clone()`: a fresh world with the same ticks, whose bodies
are the clones of the original bodies added in collection order. -/
def PhysicsWorld.clone (w : PhysicsWorld) : PhysicsWorld :=
  { ticks := w.ticks
    bodies := w.bodies.map PhysicsBody.clone }

/-- C1: PhysicsBody.update performs exactly the semi-implicit Euler step:
velocity += acceleration * dt, then position += velocity * dt with the
updated velocity, then the acceleration is reset to zero; with zero
accumulated acceleration the motion is a straight line. -/
theorem claim_C1 (b : PhysicsBody) (dt : ℚ) :
    b.update dt =
      { position := b.position + (b.velocity + b.acceleration * dt) * dt
        velocity := b.velocity + b.acceleration * dt
        acceleration := Vector2D.zero
        mass := b.mass } ∧
    (b.acceleration = Vector2D.zero →
      (b.update dt).position = b.position + b.velocity * dt ∧
      (b.update dt).velocity = b.velocity) := by
  refine ⟨rfl, fun h => ?_⟩
  simp only [PhysicsBody.update, h]
  constructor
  · congr 1
    ext <;> simp [Vector2D.zero, Vector2D.add_def, Vector2D.smul_def]
  · ext <;> simp [Vector2D.zero, Vector2D.add_def, Vector2D.smul_def]

/-- Witness for C1 at a concrete body with zero accumulated acceleration. -/
theorem claim_C1_witness :
    (PhysicsBody.update 2 (PhysicsBody.mk3 ⟨1, 2⟩ ⟨3, 4⟩ 5)).position =
        (PhysicsBody.mk3 ⟨1, 2⟩ ⟨3, 4⟩ 5).position +
          (PhysicsBody.mk3 ⟨1, 2⟩ ⟨3, 4⟩ 5).velocity * (2 : ℚ) ∧
    (PhysicsBody.update 2 (PhysicsBody.mk3 ⟨1, 2⟩ ⟨3, 4⟩ 5)).velocity =
        (PhysicsBody.mk3 ⟨1, 2⟩ ⟨3, 4⟩ 5).velocity :=
  (claim_C1 (PhysicsBody.mk3 ⟨1, 2⟩ ⟨3, 4⟩ 5) 2).2 rfl

/-- C2: one PhysicsWorld.update increments ticks by exactly one and maps the
per-body integration over the collection in order, applying no inter-body
force; consequently ticks never decreases across any sequence of steps. -/
theorem claim_C2 (w : PhysicsWorld) (dt : ℚ) :
    (w.update dt).ticks = w.ticks + 1 ∧
    (w.update dt).bodies = w.bodies.map (PhysicsBody.update dt) ∧
    ∀ dts : List ℚ, w.ticks ≤ (dts.foldl (fun w2 d => w2.update d) w).ticks := by
  refine ⟨rfl, rfl, fun dts => ?_⟩
  induction dts generalizing w with
  | nil => exact le_refl _
  | cons d rest ih =>
      refine le_trans ?_ (ih (w.update d))
      simp [PhysicsWorld.update]

/-- The force one pair contributes in applyGravitationalForces (main.cpp):
d is the separation from the first body to the second, the magnitude of the
force is strength divided by the squared magnitude of d, and the force on the
first body points along normalized d. -/
def pairForce (s : ℚ → ℚ) (strength : ℚ) (p1 p2 : Vector2D) : Vector2D :=
  let d := p2 - p1
  let r := d.magnitude s
  let forceMagnitude := strength / (r * r)
  d.normalized s * forceMagnitude

/-- One inner-loop iteration of applyGravitationalForces on the body list:
body i receives the pair force and body j its negation. -/
def gravPair (s : ℚ → ℚ) (strength : ℚ) (bodies : List PhysicsBody)
    (ij : ℕ × ℕ) : List PhysicsBody :=
  match bodies[ij.1]?, bodies[ij.2]? with
  | some b1, some b2 =>
      let force := pairForce s strength b1.position b2.position
      (bodies.set ij.1 (b1.applyForce force)).set ij.2 (b2.applyForce (-force))
  | _, _ => bodies

/-- The index pairs visited by the double loop of applyGravitationalForces:
i from 0 to n-1, j from i+1 to n-1, in loop order. -/
def pairIndices (n : ℕ) : List (ℕ × ℕ) :=
  (List.range n).flatMap fun i => ((List.range n).drop (i + 1)).map fun j => (i, j)

/-- applyGravitationalForces(strength, world) from main.cpp: for every pair
i < j it applies the pair force to body i and its negation to body j. -/
def applyGravitationalForces (s : ℚ → ℚ) (strength : ℚ)
    (w : PhysicsWorld) : PhysicsWorld :=
  { w with bodies := (pairIndices w.bodies.length).foldl (gravPair s strength) w.bodies }

/-- C3: for distinct bodies at nonzero separation, the pair force computed
with the arguments swapped is the exact negation of the original, and on a
two-body world the routine applies the force to the first body and its
negation to the second. This holds for every model s of sqrt because the
squared norm of d and of -d coincide. -/
theorem claim_C3 (s : ℚ → ℚ) (G : ℚ) (t : ℤ) (b1 b2 : PhysicsBody)
    (h : b1.position ≠ b2.position) :
    pairForce s G b2.position b1.position = -(pairForce s G b1.position b2.position) ∧
    (applyGravitationalForces s G ⟨t, [b1, b2]⟩).bodies =
      [b1.applyForce (pairForce s G b1.position b2.position),
       b2.applyForce (-(pairForce s G b1.position b2.position))] := by
  constructor
  · have hn : (b1.position - b2.position).normSq = (b2.position - b1.position).normSq := by
      simp only [Vector2D.normSq, Vector2D.sub_def]
      ring
    simp only [pairForce, Vector2D.normalized, Vector2D.magnitude, hn]
    ext <;>
      simp only [Vector2D.sub_def, Vector2D.sdiv_def, Vector2D.smul_def, Vector2D.neg_def] <;>
      ring
  · rfl

/-- Witness for C3 at concrete bodies separated along one axis. -/
theorem claim_C3_witness :
    pairForce ratSqrt 10 ⟨3, 4⟩ ⟨0, 0⟩ = -(pairForce ratSqrt 10 ⟨0, 0⟩ ⟨3, 4⟩) ∧
    (applyGravitationalForces ratSqrt 10
        ⟨0, [PhysicsBody.mk3 ⟨0, 0⟩ ⟨0, 0⟩ 1, PhysicsBody.mk3 ⟨3, 4⟩ ⟨0, 0⟩ 2]⟩).bodies =
      [(PhysicsBody.mk3 ⟨0, 0⟩ ⟨0, 0⟩ 1).applyForce
          (pairForce ratSqrt 10 ⟨0, 0⟩ ⟨3, 4⟩),
       (PhysicsBody.mk3 ⟨3, 4⟩ ⟨0, 0⟩ 2).applyForce
          (-(pairForce ratSqrt 10 ⟨0, 0⟩ ⟨3, 4⟩))] := by
  have h := claim_C3 ratSqrt 10 0
    (PhysicsBody.mk3 ⟨0, 0⟩ ⟨0, 0⟩ 1) (PhysicsBody.mk3 ⟨3, 4⟩ ⟨0, 0⟩ 2) (by decide)
  exact h

/-- C5: the source applyAcceleration is a no-op on the body, against its own
doc comment and the spec: the member is never incremented because the
parameter shadows it. Evaluated at a concrete body and acceleration. -/
theorem claim_C5_code_bug :
    PhysicsBody.applyAcceleration ⟨1, 2⟩ PhysicsBody.default = PhysicsBody.default ∧
    PhysicsBody.applyAcceleration ⟨1, 2⟩ PhysicsBody.default ≠
      specApplyAcceleration ⟨1, 2⟩ PhysicsBody.default := by
  refine ⟨rfl, fun h => ?_⟩
  have hx := congrArg (fun b => b.acceleration.x) h
  simp only [PhysicsBody.applyAcceleration, specApplyAcceleration, PhysicsBody.default,
    Vector2D.zero, Vector2D.add_def] at hx
  norm_num at hx

/-- C8: the force-law divisor is the unclamped squared magnitude of the
separation; at coincident positions it is exactly zero, so the division is
unguarded (in the float source this produces an infinity; in the rational
model division by zero collapses to zero rather than a clamped value). -/
theorem claim_C8_code_bug :
    Vector2D.magnitude ratSqrt ((⟨5, 7⟩ : Vector2D) - ⟨5, 7⟩) *
      Vector2D.magnitude ratSqrt ((⟨5, 7⟩ : Vector2D) - ⟨5, 7⟩) = 0 ∧
    pairForce ratSqrt 66700000 ⟨5, 7⟩ ⟨5, 7⟩ = ⟨0, 0⟩ := by
  have hz : ((⟨5, 7⟩ : Vector2D) - ⟨5, 7⟩) = ⟨0, 0⟩ := by
    ext <;> norm_num [Vector2D.sub_def]
  have hm : Vector2D.magnitude ratSqrt (⟨0, 0⟩ : Vector2D) = 0 := by
    show ratSqrt (Vector2D.normSq ⟨0, 0⟩) = 0
    have hq : Vector2D.normSq (⟨0, 0⟩ : Vector2D) = 0 := by norm_num [Vector2D.normSq]
    rw [hq, ratSqrt, Rat.num_zero, Rat.den_zero]
    norm_num
  constructor
  · rw [hz, hm, mul_zero]
  · show Vector2D.normalized ratSqrt ((⟨5, 7⟩ : Vector2D) - ⟨5, 7⟩) *
      ((66700000 : ℚ) / (Vector2D.magnitude ratSqrt ((⟨5, 7⟩ : Vector2D) - ⟨5, 7⟩) *
        Vector2D.magnitude ratSqrt ((⟨5, 7⟩ : Vector2D) - ⟨5, 7⟩))) = ⟨0, 0⟩
    rw [hz, hm, mul_zero, div_zero]
    ext <;> norm_num [Vector2D.normalized, Vector2D.sdiv_def, Vector2D.smul_def, hm]

/-- C9: the three-argument constructor and setMass store a non-positive mass
without any rejection, so a body with mass at most zero can exist in a world. -/
theorem claim_C9_code_bug :
    (PhysicsBody.mk3 ⟨0, 0⟩ ⟨0, 0⟩ (-1)).mass = -1 ∧
    (PhysicsBody.setMass (-2) PhysicsBody.default).mass = -2 ∧
    ((⟨0, [PhysicsBody.mk3 ⟨0, 0⟩ ⟨0, 0⟩ (-1)]⟩ : PhysicsWorld).bodies.map
        PhysicsBody.mass) = [-1] :=
  ⟨rfl, rfl, rfl⟩

/-- The observable state of a body named by claim C4: position, velocity and
mass. -/
def bodyObs (b : PhysicsBody) : Vector2D × Vector2D × ℚ :=
  (b.position, b.velocity, b.mass)

/-- Cloning keeps each body observationally identical. -/
theorem clone_map_obs (l : List PhysicsBody) :
    (l.map PhysicsBody.clone).map bodyObs = l.map bodyObs := by
  induction l with
  | nil => rfl
  | cons b t ih => simp [ih, PhysicsBody.clone, PhysicsBody.mk3, bodyObs]

/-- The two program variables of the predictor block in main.cpp: the live
world and the scratch copy. The block initialises the copy from clone and
every statement inside it writes only the copy. -/
def predictorFork (w : PhysicsWorld) : PhysicsWorld × PhysicsWorld :=
  (w, w.clone)

/-- A statement of the predictor block: an arbitrary mutation (update with
any dt, setters, force application) applied to the scratch copy only. -/
def scratchMut (f : PhysicsWorld → PhysicsWorld)
    (st : PhysicsWorld × PhysicsWorld) : PhysicsWorld × PhysicsWorld :=
  (st.1, f st.2)

/-- A statement of the surrounding loop that writes only the live world. -/
def liveMut (f : PhysicsWorld → PhysicsWorld)
    (st : PhysicsWorld × PhysicsWorld) : PhysicsWorld × PhysicsWorld :=
  (f st.1, st.2)

theorem scratchMut_fst (fs : List (PhysicsWorld → PhysicsWorld))
    (st : PhysicsWorld × PhysicsWorld) :
    (fs.foldl (fun st f => scratchMut f st) st).1 = st.1 := by
  induction fs generalizing st with
  | nil => rfl
  | cons f t ih => exact ih (scratchMut f st)

theorem liveMut_snd (fs : List (PhysicsWorld → PhysicsWorld))
    (st : PhysicsWorld × PhysicsWorld) :
    (fs.foldl (fun st f => liveMut f st) st).2 = st.2 := by
  induction fs generalizing st with
  | nil => rfl
  | cons f t ih => exact ih (liveMut f st)

/-- C4: PhysicsWorld.clone keeps the tick and every observable body field,
and any sequence of mutations of the scratch copy (as run by the trajectory
predictor for any horizon) leaves the live world untouched, and conversely
mutations of the live world leave the copy untouched. -/
theorem claim_C4 (w : PhysicsWorld) (fs gs : List (PhysicsWorld → PhysicsWorld)) :
    w.clone.ticks = w.ticks ∧
    w.clone.bodies.map bodyObs = w.bodies.map bodyObs ∧
    (fs.foldl (fun st f => scratchMut f st) (predictorFork w)).1 = w ∧
    (gs.foldl (fun st g => liveMut g st) (predictorFork w)).2 = w.clone := by
  exact ⟨rfl, clone_map_obs w.bodies, scratchMut_fst fs (predictorFork w),
    liveMut_snd gs (predictorFork w)⟩

/-- The body storage of a world together with the machine address at which
each body lives: the model that claim C10 needs, since
PhysicsWorld::removeBody compares addresses, not values. -/
structure AddrWorld where
  ticks : ℤ
  bodies : List (ℕ × PhysicsBody)
deriving DecidableEq

/-- The scan-and-erase loop of PhysicsWorld::removeBody: erase the first
stored body whose address equals the address of the argument and return. -/
def removeBodyLoop (addr : ℕ) : List (ℕ × PhysicsBody) → List (ℕ × PhysicsBody)
  | [] => []
  | e :: rest => if e.1 = addr then rest else e :: removeBodyLoop addr rest

/-- Source method `PhysicsWorld::removeBody(body)`: body is passed by value, so inside the
call it is a fresh complete object whose address paramAddr differs from the
address of every element of the vector; the loop matches on the address
`&bodies[i] == &body` and the body value itself is never inspected. -/
def AddrWorld.removeBody (paramAddr : ℕ) (body : PhysicsBody)
    (w : AddrWorld) : AddrWorld :=
  { w with bodies := removeBodyLoop paramAddr w.bodies }

theorem removeBodyLoop_fresh (addr : ℕ) (l : List (ℕ × PhysicsBody))
    (h : addr ∉ l.map Prod.fst) : removeBodyLoop addr l = l := by
  induction l with
  | nil => rfl
  | cons e t ih =>
      simp only [List.map_cons, List.mem_cons, not_or] at h
      have hne : ¬e.1 = addr := fun he => h.1 he.symm
      simp only [removeBodyLoop, if_neg hne]
      rw [ih h.2]

/-- C10: because the argument of removeBody is passed by value, its address
is distinct from the address of every body stored in the world, so the erase
branch never fires and removeBody changes neither the collection nor the
tick, even when the argument is a value-equal copy of a stored body. -/
theorem claim_C10 (w : AddrWorld) (paramAddr : ℕ) (body : PhysicsBody)
    (h : paramAddr ∉ w.bodies.map Prod.fst) :
    w.removeBody paramAddr body = w := by
  show ({ w with bodies := removeBodyLoop paramAddr w.bodies } : AddrWorld) = w
  rw [removeBodyLoop_fresh paramAddr w.bodies h]

/-- Witness for C10: a world holding the default body at address 0, called
with a value-equal copy of that body living at the fresh address 1. -/
theorem claim_C10_witness :
    AddrWorld.removeBody 1 PhysicsBody.default
        ⟨7, [(0, PhysicsBody.default)]⟩ = ⟨7, [(0, PhysicsBody.default)]⟩ :=
  claim_C10 ⟨7, [(0, PhysicsBody.default)]⟩ 1 PhysicsBody.default (by decide)

/-- Mapping a function over a list after set commutes to a set on the image. -/
theorem mapSet_eq {α β : Type} (f : α → β) (l : List α) (i : ℕ) (a : α) :
    (l.set i a).map f = (l.map f).set i (f a) := by
  induction l generalizing i with
  | nil => rfl
  | cons b t ih =>
      cases i with
      | zero => rfl
      | succ j => simp [List.set, ih j]

/-- Setting an index to the element already stored there changes nothing. -/
theorem setSelf_eq {α : Type} (l : List α) (i : ℕ) (a : α) (h : l[i]? = some a) :
    l.set i a = l := by
  induction l generalizing i with
  | nil => simp at h
  | cons b t ih =>
      cases i with
      | zero => simp_all
      | succ j =>
          simp only [List.getElem?_cons_succ] at h
          simp [List.set, ih j h]

/-- Indexing commutes with map. -/
theorem getMap_eq {α β : Type} (f : α → β) (l : List α) (i : ℕ) :
    (l.map f)[i]? = (l[i]?).map f := by
  induction l generalizing i with
  | nil => rfl
  | cons b t ih =>
      cases i with
      | zero => simp
      | succ j => simp [ih j]

/-- applyForce only touches the accumulated acceleration. -/
theorem applyForce_position (force : Vector2D) (b : PhysicsBody) :
    (b.applyForce force).position = b.position := rfl

/-- One pairwise force application leaves every position unchanged. -/
theorem gravPair_map_pos (s : ℚ → ℚ) (G : ℚ) (bodies : List PhysicsBody)
    (ij : ℕ × ℕ) :
    (gravPair s G bodies ij).map PhysicsBody.position =
      bodies.map PhysicsBody.position := by
  unfold gravPair
  cases h1 : bodies[ij.1]? with
  | none => rfl
  | some b1 =>
      cases h2 : bodies[ij.2]? with
      | none => rfl
      | some b2 =>
          have hm1 : (bodies.map PhysicsBody.position)[ij.1]? = some b1.position := by
            rw [getMap_eq, h1]; rfl
          have hm2 : (bodies.map PhysicsBody.position)[ij.2]? = some b2.position := by
            rw [getMap_eq, h2]; rfl
          simp only [mapSet_eq, applyForce_position]
          rw [setSelf_eq _ _ _ hm1, setSelf_eq _ _ _ hm2]

/-- The whole double loop of applyGravitationalForces leaves every position
unchanged: it only accumulates accelerations. -/
theorem gravFold_map_pos (s : ℚ → ℚ) (G : ℚ) (ps : List (ℕ × ℕ))
    (bodies : List PhysicsBody) :
    (ps.foldl (gravPair s G) bodies).map PhysicsBody.position =
      bodies.map PhysicsBody.position := by
  induction ps generalizing bodies with
  | nil => rfl
  | cons p t ih => rw [List.foldl_cons, ih, gravPair_map_pos]

theorem applyGrav_map_pos (s : ℚ → ℚ) (G : ℚ) (w : PhysicsWorld) :
    (applyGravitationalForces s G w).bodies.map PhysicsBody.position =
      w.bodies.map PhysicsBody.position :=
  gravFold_map_pos s G (pairIndices w.bodies.length) w.bodies

/-- The body stored at index i, defaulting outside the collection: the model
of the vector indexing `bodies[i]` used by main.cpp. -/
def bodyAt (l : List PhysicsBody) (i : ℕ) : PhysicsBody :=
  (l[i]?).getD PhysicsBody.default

/-- Lists whose positions agree elementwise have the same indexed positions. -/
theorem bodyAt_pos_eq (l1 l2 : List PhysicsBody)
    (h : l1.map PhysicsBody.position = l2.map PhysicsBody.position) (i : ℕ) :
    (bodyAt l1 i).position = (bodyAt l2 i).position := by
  have h1 := congrArg (fun l => l[i]?) h
  simp only [getMap_eq] at h1
  unfold bodyAt
  cases h2 : l1[i]? with
  | none =>
      cases h3 : l2[i]? with
      | none => simp
      | some b => rw [h2, h3] at h1; simp at h1
  | some a =>
      cases h3 : l2[i]? with
      | none => rw [h2, h3] at h1; simp at h1
      | some b =>
          rw [h2, h3] at h1
          simp at h1
          simp [h1]

/-- The speed of the target body of the predictor, index 1 in main.cpp:
`world_copy.bodies[1].getVelocity().magnitude()`. -/
def speedOfBody1 (s : ℚ → ℚ) (w : PhysicsWorld) : ℚ :=
  (bodyAt w.bodies 1).velocity.magnitude s

/-- One iteration of the predictor loop in main.cpp, in source order:
`world_copy.update(20 / speed)` first, then
`applyGravitationalForces(G, world_copy)`; the step size is the sampling
distance (20 in the source) divided by the speed the target body has when
the iteration starts. -/
def predictStep (s : ℚ → ℚ) (G samplingDistance : ℚ)
    (w : PhysicsWorld) : PhysicsWorld :=
  applyGravitationalForces s G (w.update (samplingDistance / speedOfBody1 s w))

/-- The polyline recorded by the predictor loop: after each iteration the
position of body 1 is pushed, horizon (100 in the source) times. -/
def predictPoints (s : ℚ → ℚ) (G samplingDistance : ℚ) :
    ℕ → PhysicsWorld → List Vector2D
  | 0, _ => []
  | n + 1, w =>
      let w2 := predictStep s G samplingDistance w
      (bodyAt w2.bodies 1).position :: predictPoints s G samplingDistance n w2

/-- Modelled from the spec: one predictor iteration in the order claim C6
states it — derive dt from the current speed, apply the force law to the
clone, then step. Stated only to compare with the source order. -/
def specPredictStep (s : ℚ → ℚ) (G samplingDistance : ℚ)
    (w : PhysicsWorld) : PhysicsWorld :=
  let dt := samplingDistance / speedOfBody1 s w
  (applyGravitationalForces s G w).update dt

/-- Modelled from the spec: the polyline the claimed iteration order records. -/
def specPredictPoints (s : ℚ → ℚ) (G samplingDistance : ℚ) :
    ℕ → PhysicsWorld → List Vector2D
  | 0, _ => []
  | n + 1, w =>
      let w2 := specPredictStep s G samplingDistance w
      (bodyAt w2.bodies 1).position :: specPredictPoints s G samplingDistance n w2

/-- On a two-body world the force routine applies the pair force to the
first body and its negation to the second, whatever the sqrt model. -/
theorem gravTwo (s : ℚ → ℚ) (G : ℚ) (t : ℤ) (b1 b2 : PhysicsBody) :
    applyGravitationalForces s G ⟨t, [b1, b2]⟩ =
      ⟨t, [b1.applyForce (pairForce s G b1.position b2.position),
           b2.applyForce (-(pairForce s G b1.position b2.position))]⟩ := rfl

/-- The concrete sqrt model is exact at 25. -/
theorem ratSqrt_25 : ratSqrt 25 = 5 := by
  show ((Nat.sqrt (25 : ℚ).num.toNat : ℚ) / (Nat.sqrt (25 : ℚ).den : ℚ)) = 5
  rw [show (25 : ℚ).num.toNat = 25 from rfl, show (25 : ℚ).den = 1 from rfl,
    show (25 : ℕ) = 5 * 5 from rfl, Nat.sqrt_eq, Nat.sqrt_one]
  norm_num

/-- The world used to separate the two iteration orders: body 0 at rest at
the origin, body 1 at distance 5 moving at speed 5. -/
def worldC6 : PhysicsWorld :=
  ⟨0, [PhysicsBody.mk3 ⟨0, 0⟩ ⟨0, 0⟩ 1, PhysicsBody.mk3 ⟨3, 4⟩ ⟨5, 0⟩ 1]⟩

/-- C6 counterexample: already at horizon 1 the polyline the source records
differs from the polyline the claimed order (force law before step) records:
the source steps the freshly cloned world before any force has been
accumulated, so gravity first bends the recorded path one sample later. -/
theorem claim_C6_counterexample :
    predictPoints ratSqrt 66700000 20 1 worldC6.clone ≠
      specPredictPoints ratSqrt 66700000 20 1 worldC6.clone := by
  have hclone : worldC6.clone = worldC6 := rfl
  have hspeed : speedOfBody1 ratSqrt worldC6 = 5 := by
    show Vector2D.magnitude ratSqrt (⟨5, 0⟩ : Vector2D) = 5
    show ratSqrt (Vector2D.normSq ⟨5, 0⟩) = 5
    rw [show Vector2D.normSq ⟨5, 0⟩ = 25 by norm_num [Vector2D.normSq], ratSqrt_25]
  have hdt : (20 : ℚ) / speedOfBody1 ratSqrt worldC6 = 4 := by
    rw [hspeed]; norm_num
  -- the source-order point: position of body 1 after update(4), forces after
  have hcodePos : (bodyAt (predictStep ratSqrt 66700000 20 worldC6).bodies 1).position =
      (⟨23, 4⟩ : Vector2D) := by
    unfold predictStep
    rw [hdt]
    rw [bodyAt_pos_eq _ _ (applyGrav_map_pos ratSqrt 66700000 (worldC6.update 4)) 1]
    show ((PhysicsBody.mk3 ⟨3, 4⟩ ⟨5, 0⟩ 1).update 4).position = (⟨23, 4⟩ : Vector2D)
    show (⟨3, 4⟩ : Vector2D) + ((⟨5, 0⟩ : Vector2D) + Vector2D.zero * 4) * 4 =
      (⟨23, 4⟩ : Vector2D)
    ext <;> norm_num [Vector2D.zero, Vector2D.add_def, Vector2D.smul_def]
  -- the claimed-order point: gravity is already accumulated when stepping
  have hd34 : ((⟨3, 4⟩ : Vector2D) - ⟨0, 0⟩) = (⟨3, 4⟩ : Vector2D) := by
    ext <;> norm_num [Vector2D.sub_def]
  have hforce : pairForce ratSqrt 66700000 (⟨0, 0⟩ : Vector2D) ⟨3, 4⟩ =
      (⟨1600800, 2134400⟩ : Vector2D) := by
    show ((⟨3, 4⟩ : Vector2D) - ⟨0, 0⟩) /
        ratSqrt ((⟨3, 4⟩ : Vector2D) - ⟨0, 0⟩).normSq *
        ((66700000 : ℚ) /
          (ratSqrt ((⟨3, 4⟩ : Vector2D) - ⟨0, 0⟩).normSq *
            ratSqrt ((⟨3, 4⟩ : Vector2D) - ⟨0, 0⟩).normSq)) =
      (⟨1600800, 2134400⟩ : Vector2D)
    rw [hd34, show Vector2D.normSq ⟨3, 4⟩ = 25 by norm_num [Vector2D.normSq],
      ratSqrt_25]
    ext <;> norm_num [Vector2D.sdiv_def, Vector2D.smul_def]
  have hspecPos : (bodyAt (specPredictStep ratSqrt 66700000 20 worldC6).bodies 1).position =
      (⟨-25612777, -34150396⟩ : Vector2D) := by
    show (PhysicsBody.update (20 / speedOfBody1 ratSqrt worldC6)
        ((PhysicsBody.mk3 ⟨3, 4⟩ ⟨5, 0⟩ 1).applyForce
          (-(pairForce ratSqrt 66700000 (⟨0, 0⟩ : Vector2D) ⟨3, 4⟩)))).position =
      (⟨-25612777, -34150396⟩ : Vector2D)
    rw [hdt, hforce]
    show (⟨3, 4⟩ : Vector2D) +
        ((⟨5, 0⟩ : Vector2D) +
          (Vector2D.zero + -(⟨1600800, 2134400⟩ : Vector2D) / (1 : ℚ)) * 4) * 4 =
      (⟨-25612777, -34150396⟩ : Vector2D)
    ext <;> norm_num [Vector2D.zero, Vector2D.add_def, Vector2D.smul_def,
      Vector2D.sdiv_def, Vector2D.neg_def]
  intro h
  rw [hclone] at h
  have h1 : (bodyAt (predictStep ratSqrt 66700000 20 worldC6).bodies 1).position =
      (bodyAt (specPredictStep ratSqrt 66700000 20 worldC6).bodies 1).position := by
    have := congrArg (fun l => l[0]?) h
    simpa [predictPoints, specPredictPoints] using this
  rw [hcodePos, hspecPos] at h1
  have hx := congrArg Vector2D.x h1
  norm_num at hx

/-- C6 amended: each predictor iteration derives dt as samplingDistance over
the current speed of the target body, calls step(dt) on the clone first, then
applies the force law (consumed by the step of the next iteration), and records
the post-step position of the target body; the polyline is the ordered sequence
of the target positions of the successive iterates, advanced by a variable
amount of simulated time per step. -/
theorem claim_C6_amended (s : ℚ → ℚ) (G sd : ℚ) (w : PhysicsWorld) (n : ℕ) :
    predictPoints s G sd n w =
      (List.range n).map (fun k =>
        (bodyAt ((predictStep s G sd)^[k + 1] w).bodies 1).position) ∧
    (bodyAt (predictStep s G sd w).bodies 1).position =
      (bodyAt ((w.update (sd / speedOfBody1 s w)).bodies) 1).position := by
  constructor
  · induction n generalizing w with
    | zero => rfl
    | succ m ih =>
        rw [List.range_succ_eq_map, List.map_cons, List.map_map]
        show (bodyAt (predictStep s G sd w).bodies 1).position ::
            predictPoints s G sd m (predictStep s G sd w) = _
        have htail : predictPoints s G sd m (predictStep s G sd w) =
            List.map ((fun k =>
                (bodyAt ((predictStep s G sd)^[k + 1] w).bodies 1).position) ∘ Nat.succ)
              (List.range m) := by
          rw [ih (predictStep s G sd w)]
          rfl
        rw [htail]
        rfl
  · exact bodyAt_pos_eq _ _
      (applyGrav_map_pos s G (w.update (sd / speedOfBody1 s w))) 1

/-- Modelled from the spec: a Frame2D node carries a position, a rotation
and a non-uniform scale (Frame2D.h is not among the provided sources; the
spec fixes the transform order). The rotation angle enters the transform
only through its cosine and sine, so the embedding stores that pair; a pair
lying on the unit circle represents an angle exactly. -/
structure Frame2D where
  position : Vector2D
  rotCos : ℚ
  rotSin : ℚ
  scale : Vector2D
deriving DecidableEq

/-- Modelled from the spec: one level of getGlobalCoordinates — apply the
scale, then the rotation, then the translation, yielding coordinates in the
parent frame. -/
def Frame2D.ownGlobal (f : Frame2D) (p : Vector2D) : Vector2D :=
  let sp : Vector2D := ⟨f.scale.x * p.x, f.scale.y * p.y⟩
  let rp : Vector2D := ⟨f.rotCos * sp.x - f.rotSin * sp.y,
                        f.rotSin * sp.x + f.rotCos * sp.y⟩
  rp + f.position

/-- Modelled from the spec: one level of getLocalCoordinates — the exact
inverse: subtract the translation, rotate back, divide out the scale. -/
def Frame2D.ownLocal (f : Frame2D) (p : Vector2D) : Vector2D :=
  let tp : Vector2D := p - f.position
  let rp : Vector2D := ⟨f.rotCos * tp.x + f.rotSin * tp.y,
                        f.rotCos * tp.y - f.rotSin * tp.x⟩
  ⟨rp.x / f.scale.x, rp.y / f.scale.y⟩

/-- Modelled from the spec: toGlobal on an acyclic parent chain, leaf frame
first, root last; the leaf transform is applied innermost. -/
def toGlobal (chain : List Frame2D) (p : Vector2D) : Vector2D :=
  chain.foldl (fun q f => f.ownGlobal q) p

/-- Modelled from the spec: toLocal walks the same chain from the root down,
inverting each level. -/
def toLocal (chain : List Frame2D) (p : Vector2D) : Vector2D :=
  chain.foldr (fun f q => f.ownLocal q) p

/-- A frame whose transform is invertible: nonzero scale components and a
rotation pair lying on the unit circle. -/
def Frame2D.invertible (f : Frame2D) : Prop :=
  f.scale.x ≠ 0 ∧ f.scale.y ≠ 0 ∧ f.rotCos * f.rotCos + f.rotSin * f.rotSin = 1

/-- One invertible level undoes itself exactly. -/
theorem ownLocal_ownGlobal (f : Frame2D) (hf : f.invertible) (p : Vector2D) :
    f.ownLocal (f.ownGlobal p) = p := by
  obtain ⟨hx, hy, hr⟩ := hf
  unfold Frame2D.ownLocal Frame2D.ownGlobal
  ext
  · show (f.rotCos * (((⟨f.rotCos * (f.scale.x * p.x) - f.rotSin * (f.scale.y * p.y),
        f.rotSin * (f.scale.x * p.x) + f.rotCos * (f.scale.y * p.y)⟩ : Vector2D) +
          f.position - f.position).x) +
      f.rotSin * (((⟨f.rotCos * (f.scale.x * p.x) - f.rotSin * (f.scale.y * p.y),
        f.rotSin * (f.scale.x * p.x) + f.rotCos * (f.scale.y * p.y)⟩ : Vector2D) +
          f.position - f.position).y)) / f.scale.x = p.x
    simp only [Vector2D.add_def, Vector2D.sub_def]
    field_simp
    linear_combination f.scale.x * p.x * hr
  · show (f.rotCos * (((⟨f.rotCos * (f.scale.x * p.x) - f.rotSin * (f.scale.y * p.y),
        f.rotSin * (f.scale.x * p.x) + f.rotCos * (f.scale.y * p.y)⟩ : Vector2D) +
          f.position - f.position).y) -
      f.rotSin * (((⟨f.rotCos * (f.scale.x * p.x) - f.rotSin * (f.scale.y * p.y),
        f.rotSin * (f.scale.x * p.x) + f.rotCos * (f.scale.y * p.y)⟩ : Vector2D) +
          f.position - f.position).x)) / f.scale.y = p.y
    simp only [Vector2D.add_def, Vector2D.sub_def]
    field_simp
    linear_combination f.scale.y * p.y * hr

/-- C7: for every point and every acyclic chain of nested invertible frames
of any depth, with arbitrary position, rotation and non-uniform scale at
each level, converting to global coordinates and back returns the point —
exactly, over the rational embedding, hence within any floating tolerance. -/
theorem claim_C7 (chain : List Frame2D) (p : Vector2D)
    (h : ∀ f ∈ chain, f.invertible) :
    toLocal chain (toGlobal chain p) = p := by
  revert h
  induction chain generalizing p with
  | nil => intro _; rfl
  | cons f rest ih =>
      intro h
      show f.ownLocal (toLocal rest (toGlobal rest (f.ownGlobal p))) = p
      rw [ih (f.ownGlobal p) (fun g hg => h g (List.mem_cons_of_mem f hg))]
      exact ownLocal_ownGlobal f (h f (List.mem_cons_self f rest)) p

/-- A leaf frame: translated, rotated by the angle with cosine 3/5, scaled
non-uniformly. -/
def frameA : Frame2D := ⟨⟨7, -2⟩, 3/5, 4/5, ⟨2, 3⟩⟩

/-- A middle frame rotated by the angle with cosine 5/13, with a negative
scale component. -/
def frameB : Frame2D := ⟨⟨-1, 4⟩, 5/13, 12/13, ⟨1, -2⟩⟩

/-- A root frame with no rotation and another non-uniform scale. -/
def frameC : Frame2D := ⟨⟨0, 1⟩, 1, 0, ⟨-1, 5⟩⟩

/-- Witness for C7: a chain of three nested frames with arbitrary position,
rotation and non-uniform scale, evaluated at a concrete point. -/
theorem claim_C7_witness :
    (∀ f ∈ [frameA, frameB, frameC], f.invertible) ∧
    toLocal [frameA, frameB, frameC]
        (toGlobal [frameA, frameB, frameC] ⟨10, -3⟩) = ⟨10, -3⟩ := by
  have hA : frameA.invertible := by
    refine ⟨?_, ?_, ?_⟩ <;> norm_num [frameA, Frame2D.invertible]
  have hB : frameB.invertible := by
    refine ⟨?_, ?_, ?_⟩ <;> norm_num [frameB, Frame2D.invertible]
  have hC : frameC.invertible := by
    refine ⟨?_, ?_, ?_⟩ <;> norm_num [frameC, Frame2D.invertible]
  have h : ∀ f ∈ [frameA, frameB, frameC], f.invertible := by
    intro f hf
    simp only [List.mem_cons, List.not_mem_nil, or_false] at hf
    rcases hf with rfl | rfl | rfl
    · exact hA
    · exact hB
    · exact hC
  exact ⟨h, claim_C7 [frameA, frameB, frameC] ⟨10, -3⟩ h⟩
